import Mathlib

/-!
Verification of the bracket-and-interpolate engine of the drone_metashape
repository (files upd_micasense_pos_filename.py and upd_micasense_pos_custom.py).

Timestamps and coordinates are modelled as rational numbers; Python list
indexing is modelled by pyGet, which wraps small negative indices around
(as Python does) and reports an out-of-bounds access as none (an IndexError).
-/

/-- A position triple: easting, northing, ellipsoidal height (or, before the
coordinate transform, latitude, longitude, ellipsoidal height). -/
abbrev Pos3 := ℚ × ℚ × ℚ

/-- The per-run primary-sensor data accumulated by get_P1_position over the
MRK files of a mission: the concatenated camera timestamps (P1_events), the
concatenated transformed positions (P1_pos), and the per-file first and last
timestamps (P1_first_timestamp and P1_last_timestamp, keyed 1..mrk_file_count
in the source, here 0-based lists). -/
structure P1Data where
  P1_events : List ℚ
  P1_pos : List Pos3
  P1_first_timestamp : List ℚ
  P1_last_timestamp : List ℚ

/-- Auxiliary loop of find_nearest: numpy argmin of the absolute distance,
keeping the first index that attains the minimum. `i` is the index of the
next element of the scanned list, `best` the index of the current minimum,
`bd` the current minimal distance. -/
def fnAux (v : ℚ) : List ℚ → Nat → Nat → ℚ → Nat
  | [], _, best, _ => best
  | x :: xs, i, best, bd =>
    if |x - v| < bd then fnAux v xs (i + 1) i |x - v|
    else fnAux v xs (i + 1) best bd

/-- find_nearest of the source: index of the timestamp nearest to `v`
(numpy (np.abs(array - value)).argmin(), first occurrence on ties). -/
def find_nearest (arr : List ℚ) (v : ℚ) : Nat :=
  match arr with
  | [] => 0
  | x :: xs => fnAux v xs 1 0 |x - v|

/-- Python list indexing: a negative index wraps around from the end; an
index outside the list raises IndexError, modelled as none. -/
def pyGet (l : List α) (i : Int) : Option α :=
  if 0 ≤ i then l.get? i.toNat
  else if (-i).toNat ≤ l.length then l.get? (l.length - (-i).toNat)
  else none

/-- The P1_triggered classification of ret_micasense_pos: a capture with
corrected timestamp T is out of range (False) when T is before the first
timestamp of the first MRK file or after the last timestamp of the last MRK
file, or, when more than one MRK file exists, when T falls strictly between
the last timestamp of one file and the first timestamp of the next. -/
def P1_triggered (d : P1Data) (T : ℚ) : Bool :=
  if T < d.P1_first_timestamp.getD 0 0 ∨
      d.P1_last_timestamp.getD (d.P1_first_timestamp.length - 1) 0 < T then
    false
  else if 1 < d.P1_first_timestamp.length then
    !((List.range (d.P1_first_timestamp.length - 1)).any fun j =>
        decide (d.P1_last_timestamp.getD j 0 < T ∧
          T < d.P1_first_timestamp.getD (j + 1) 0))
  else
    true

/-- The bracket determination of ret_micasense_pos for an in-range capture:
with `a` the nearest index, if P1_events[a] ≤ T the bracket is
(a, a+1); otherwise it is (a-1, a). The accesses at a+1 and a-1 use Python
indexing (pyGet); a failed access is the IndexError of the source. Returns
(time1, time2, upd_pos1, upd_pos2). -/
def bracket_nearest (events : List ℚ) (pos : List Pos3) (a : Nat) (T : ℚ) :
    Option (ℚ × ℚ × Pos3 × Pos3) :=
  let ta := events.getD a 0
  if ta ≤ T then
    match pyGet events ((a : Int) + 1), pyGet pos ((a : Int) + 1) with
    | some t2, some p2 => some (ta, t2, pos.getD a (0, 0, 0), p2)
    | _, _ => none
  else
    match pyGet events ((a : Int) - 1), pyGet pos ((a : Int) - 1) with
    | some t1, some p1 => some (t1, ta, p1, pos.getD a (0, 0, 0))
    | _, _ => none

/-- The selection of time1, time2, upd_pos1, upd_pos2 in the loop body of
ret_micasense_pos: an out-of-range capture gets times 0 and zero positions;
an in-range capture gets the bracket of its nearest primary fix. -/
def bracket_selection (d : P1Data) (T : ℚ) : Option (ℚ × ℚ × Pos3 × Pos3) :=
  if P1_triggered d T then
    bracket_nearest d.P1_events d.P1_pos (find_nearest d.P1_events T) T
  else
    some (0, 0, (0, 0, 0), (0, 0, 0))

/-- time_delta of the source: the interpolation fraction, 0 when the two
bracket times coincide, (T - time1) / (time2 - time1) otherwise. -/
def time_delta (t1 t2 T : ℚ) : ℚ :=
  if t2 - t1 ≠ 0 then (T - t1) / (t2 - t1) else 0

/-- Componentwise linear interpolation of the source: interp_E, interp_N,
interp_h computed as upd_pos1 + time_delta * (upd_pos2 - upd_pos1). -/
def interp_pos (f : ℚ) (p1 p2 : Pos3) : Pos3 :=
  (p1.1 + f * (p2.1 - p1.1),
   p1.2.1 + f * (p2.2.1 - p1.2.1),
   p1.2.2 + f * (p2.2.2 - p1.2.2))

/-- One loop iteration of ret_micasense_pos for a capture with corrected
timestamp T, where rE and rN are the fallback easting and northing the loop
selected for the row (mica_pos[pos_index]). Emits the row values (Easting,
Northing, Ellip Height): the interpolated triple when the interpolated
height is nonzero, otherwise the fallback easting/northing with the zero
height. none is the IndexError of a failed bracket access. -/
def ret_micasense_pos_step (d : P1Data) (T rE rN : ℚ) : Option Pos3 :=
  match bracket_selection d T with
  | none => none
  | some (t1, t2, p1, p2) =>
    if (interp_pos (time_delta t1 t2 T) p1 p2).2.2 ≠ 0 then
      some (interp_pos (time_delta t1 t2 T) p1 p2)
    else
      some (rE, rN, (interp_pos (time_delta t1 t2 T) p1 p2).2.2)

/-- One output row of ret_micasense_pos: for the capture at position i of
mica_events, the label is filelist[i] (the unfiltered discovery list), and
the fallback position is mica_pos[mica_events.index(T)], the first capture
sharing the timestamp T. -/
def ret_micasense_pos_row (d : P1Data) (ev : List ℚ) (mp : List (ℚ × ℚ))
    (names : List String) (i : Nat) : Option (String × Pos3) :=
  (ret_micasense_pos_step d (ev.getD i 0)
      (mp.getD (List.indexOf (ev.getD i 0) ev) (0, 0)).1
      (mp.getD (List.indexOf (ev.getD i 0) ev) (0, 0)).2).map
    fun p => (names.getD i "", p)

/-- One discovered MicaSense master-band file: its path and, when exifread
found tags, the corrected capture timestamp with the transformed geotagged
easting/northing (none models the empty-tags files skipped by the scan). -/
structure MicaFile where
  name : String
  meta : Option (ℚ × ℚ × ℚ)

/-- The mica_events list built by the scan loop: timestamps of the files
that had metadata, in discovery order. -/
def mica_events_of (files : List MicaFile) : List ℚ :=
  files.filterMap fun f => f.meta.map fun m => m.1

/-- The mica_pos list built by the scan loop: geotagged easting/northing of
the files that had metadata, in discovery order. -/
def mica_pos_of (files : List MicaFile) : List (ℚ × ℚ) :=
  files.filterMap fun f => f.meta.map fun m => (m.2.1, m.2.2)

/-- All rows written by the output loop of ret_micasense_pos: one iteration
per entry of mica_events, labelled by filelist[count] where count is the
dense loop counter over the unfiltered file list. -/
def ret_micasense_pos_rows (d : P1Data) (files : List MicaFile) :
    Option (List (String × Pos3)) :=
  let ev := mica_events_of files
  let mp := mica_pos_of files
  let names := files.map fun f => f.name
  (List.range ev.length).mapM fun i => ret_micasense_pos_row d ev mp names i

/-- The result of fnAux is an in-bounds index attaining the minimal distance
over the whole array, given the invariants of the scan. -/
theorem fnAux_spec (v : ℚ) (xs : List ℚ) :
    ∀ (arr : List ℚ) (i best : Nat),
      arr.drop i = xs → best < i → i ≤ arr.length →
      (∀ k, k < i → |arr.getD best 0 - v| ≤ |arr.getD k 0 - v|) →
      fnAux v xs i best |arr.getD best 0 - v| < arr.length ∧
        ∀ k, k < arr.length →
          |arr.getD (fnAux v xs i best |arr.getD best 0 - v|) 0 - v| ≤ |arr.getD k 0 - v| := by
  induction xs with
  | nil =>
    intro arr i best hdrop hbi hil hmin
    have hlen : arr.length ≤ i := by
      have h := congrArg List.length hdrop
      simp only [List.length_drop, List.length_nil] at h
      omega
    constructor
    · simpa [fnAux] using lt_of_lt_of_le hbi hil
    · intro k hk
      simpa [fnAux] using hmin k (by omega)
  | cons x xs ih =>
    intro arr i best hdrop hbi hil hmin
    have hx : arr.get? i = some x := by
      have := List.get?_drop arr i 0
      rw [hdrop] at this
      simpa using this.symm
    have hilt : i < arr.length := (List.get?_eq_some.mp hx).1
    have hxD : arr.getD i 0 = x := by
      rw [List.getD_eq_get?, hx]
      rfl
    have hdrop' : arr.drop (i + 1) = xs := by
      have h1 : arr.drop (i + 1) = (arr.drop i).drop 1 := by
        rw [List.drop_drop]
      rw [h1, hdrop]
      rfl
    have hunfold : fnAux v (x :: xs) i best |arr.getD best 0 - v| =
        if |x - v| < |arr.getD best 0 - v| then fnAux v xs (i + 1) i |x - v|
        else fnAux v xs (i + 1) best |arr.getD best 0 - v| := rfl
    by_cases hcmp : |x - v| < |arr.getD best 0 - v|
    · rw [hunfold, if_pos hcmp, ← hxD]
      exact ih arr (i + 1) i hdrop' (by omega) (by omega)
        (fun k hk => by
          rcases Nat.lt_succ_iff_lt_or_eq.mp hk with hk' | hk'
          · exact le_of_lt (lt_of_lt_of_le (hxD ▸ hcmp) (hmin k hk'))
          · subst hk'; exact le_refl _)
    · rw [hunfold, if_neg hcmp]
      exact ih arr (i + 1) best hdrop' (by omega) (by omega)
        (fun k hk => by
          rcases Nat.lt_succ_iff_lt_or_eq.mp hk with hk' | hk'
          · exact hmin k hk'
          · subst hk'; rw [hxD]; exact le_of_not_lt hcmp)

/-- On a nonempty array, find_nearest returns an in-bounds index. -/
theorem find_nearest_lt_length (arr : List ℚ) (v : ℚ) (h : arr ≠ []) :
    find_nearest arr v < arr.length := by
  match arr with
  | [] => exact absurd rfl h
  | x :: xs =>
    have h0 : ((x :: xs).getD 0 0 : ℚ) = x := rfl
    have hs := fnAux_spec v xs (x :: xs) 1 0 rfl (by omega) (by simp)
      (fun k hk => by interval_cases k; exact le_refl _)
    rw [h0] at hs
    exact hs.1

/-- The index returned by find_nearest attains the minimal absolute distance. -/
theorem find_nearest_min (arr : List ℚ) (v : ℚ) (k : Nat) (hk : k < arr.length) :
    |arr.getD (find_nearest arr v) 0 - v| ≤ |arr.getD k 0 - v| := by
  match arr with
  | [] => simp at hk
  | x :: xs =>
    have h0 : ((x :: xs).getD 0 0 : ℚ) = x := rfl
    have hs := fnAux_spec v xs (x :: xs) 1 0 rfl (by omega) (by simp)
      (fun j hj => by interval_cases j; exact le_refl _)
    rw [h0] at hs
    exact hs.2 k hk

/-- When the sought value occurs in the array, find_nearest lands on an
occurrence of it. -/
theorem find_nearest_exact (arr : List ℚ) (v : ℚ) (hv : v ∈ arr) :
    arr.getD (find_nearest arr v) 0 = v := by
  obtain ⟨n, hn⟩ := List.mem_iff_get.mp hv
  have hlt : (n : Nat) < arr.length := n.isLt
  have hD : arr.getD (n : Nat) 0 = v := by
    rw [List.getD_eq_get?, List.get?_eq_get hlt]
    simpa using hn
  have hmin := find_nearest_min arr v n hlt
  rw [hD, sub_self, abs_zero] at hmin
  have habs : |arr.getD (find_nearest arr v) 0 - v| = 0 :=
    le_antisymm hmin (abs_nonneg _)
  have hz := abs_eq_zero.mp habs
  linarith [hz]

/-- Each flight segment is well formed: its first timestamp does not exceed
its last timestamp. -/
abbrev SegWF (d : P1Data) : Prop :=
  ∀ i, i < d.P1_first_timestamp.length →
    d.P1_first_timestamp.getD i 0 ≤ d.P1_last_timestamp.getD i 0

/-- Flight segments are ordered by time and do not overlap: each segment
ends no later than the next one starts. -/
abbrev SegOrdered (d : P1Data) : Prop :=
  ∀ i, i < d.P1_first_timestamp.length - 1 →
    d.P1_last_timestamp.getD i 0 ≤ d.P1_first_timestamp.getD (i + 1) 0

/-- Under the ordering invariants, the first timestamp of an earlier segment
is bounded by the last timestamp of any later segment. -/
theorem seg_first_le_last (d : P1Data) (hw : SegWF d) (ho : SegOrdered d) :
    ∀ j, j < d.P1_first_timestamp.length → ∀ i, i ≤ j →
      d.P1_first_timestamp.getD i 0 ≤ d.P1_last_timestamp.getD j 0 := by
  intro j
  induction j with
  | zero =>
    intro hj i hi
    have : i = 0 := by omega
    subst this
    exact hw 0 hj
  | succ j ih =>
    intro hj i hi
    rcases Nat.lt_succ_iff_lt_or_eq.mp (Nat.lt_succ_of_le hi) with h | h
    · calc d.P1_first_timestamp.getD i 0
          ≤ d.P1_last_timestamp.getD j 0 := ih (by omega) i (by omega)
        _ ≤ d.P1_first_timestamp.getD (j + 1) 0 := ho j (by omega)
        _ ≤ d.P1_last_timestamp.getD (j + 1) 0 := hw (j + 1) hj
    · subst h
      exact hw (j + 1) hj

/-- Under the ordering invariants, segment first timestamps are monotone. -/
theorem seg_first_mono (d : P1Data) (hw : SegWF d) (ho : SegOrdered d) :
    ∀ j, j < d.P1_first_timestamp.length → ∀ i, i ≤ j →
      d.P1_first_timestamp.getD i 0 ≤ d.P1_first_timestamp.getD j 0 := by
  intro j hj i hi
  rcases Nat.eq_or_lt_of_le hi with h | h
  · subst h; exact le_refl _
  · calc d.P1_first_timestamp.getD i 0
        ≤ d.P1_last_timestamp.getD (j - 1) 0 :=
          seg_first_le_last d hw ho (j - 1) (by omega) i (by omega)
      _ ≤ d.P1_first_timestamp.getD j 0 := by
          have := ho (j - 1) (by omega)
          have hj1 : j - 1 + 1 = j := by omega
          rwa [hj1] at this

/-- A capture is classified in range when it is neither before the first
timestamp, nor after the last, nor inside any inter-segment gap. -/
theorem P1_triggered_true_of (d : P1Data) (T : ℚ)
    (h1 : ¬ T < d.P1_first_timestamp.getD 0 0)
    (h2 : ¬ d.P1_last_timestamp.getD (d.P1_first_timestamp.length - 1) 0 < T)
    (h3 : ∀ j, j < d.P1_first_timestamp.length - 1 →
      ¬ (d.P1_last_timestamp.getD j 0 < T ∧
          T < d.P1_first_timestamp.getD (j + 1) 0)) :
    P1_triggered d T = true := by
  unfold P1_triggered
  rw [if_neg (by tauto)]
  by_cases hc : 1 < d.P1_first_timestamp.length
  · rw [if_pos hc]
    simp only [Bool.not_eq_true', List.any_eq_false, List.mem_range,
      decide_eq_true_eq]
    intro j hj
    exact h3 j hj
  · rw [if_neg hc]

/-- A capture strictly inside an inter-segment gap is classified out of
range. -/
theorem P1_triggered_false_of_gap (d : P1Data) (T : ℚ) (k : Nat)
    (hw : SegWF d) (ho : SegOrdered d)
    (hk : k + 1 < d.P1_first_timestamp.length)
    (hg1 : d.P1_last_timestamp.getD k 0 < T)
    (hg2 : T < d.P1_first_timestamp.getD (k + 1) 0) :
    P1_triggered d T = false := by
  unfold P1_triggered
  have h1 : ¬ T < d.P1_first_timestamp.getD 0 0 := by
    have := seg_first_le_last d hw ho k (by omega) 0 (by omega)
    push_neg
    linarith
  have h2 : ¬ d.P1_last_timestamp.getD (d.P1_first_timestamp.length - 1) 0 < T := by
    have := seg_first_le_last d hw ho (d.P1_first_timestamp.length - 1)
      (by omega) (k + 1) (by omega)
    push_neg
    linarith
  rw [if_neg (by tauto), if_pos (by omega)]
  have hany : (List.range (d.P1_first_timestamp.length - 1)).any (fun j =>
      decide (d.P1_last_timestamp.getD j 0 < T ∧
        T < d.P1_first_timestamp.getD (j + 1) 0)) = true := by
    rw [List.any_eq_true]
    exact ⟨k, List.mem_range.mpr (by omega), by
      simp only [decide_eq_true_eq]
      exact ⟨hg1, hg2⟩⟩
  rw [hany]
  rfl

/-- A capture before the first timestamp of the first segment is classified
out of range. -/
theorem P1_triggered_false_before (d : P1Data) (T : ℚ)
    (h : T < d.P1_first_timestamp.getD 0 0) :
    P1_triggered d T = false := by
  unfold P1_triggered
  rw [if_pos (Or.inl h)]

/-- An out-of-range capture is emitted with its fallback easting/northing
and the zero sentinel height. -/
theorem step_untriggered (d : P1Data) (T rE rN : ℚ)
    (h : P1_triggered d T = false) :
    ret_micasense_pos_step d T rE rN = some (rE, rN, 0) := by
  unfold ret_micasense_pos_step bracket_selection
  rw [h]
  simp only [Bool.false_eq_true, if_false]
  norm_num [time_delta, interp_pos]

/-- Python indexing with a nonnegative index is plain list lookup. -/
theorem pyGet_natCast {α : Type} (l : List α) (n : Nat) :
    pyGet l (n : Int) = l.get? n := by
  unfold pyGet
  rw [if_pos (Int.natCast_nonneg n)]
  simp

/-- An in-bounds lookup returns the getD value. -/
theorem get?_eq_some_getD {α : Type} (dflt : α) (l : List α) (n : Nat)
    (h : n < l.length) : l.get? n = some (l.getD n dflt) := by
  rw [List.getD_eq_get?]
  cases hx : l.get? n with
  | none =>
    have := List.get?_eq_none.mp hx
    omega
  | some y => rfl

/-- When the capture timestamp T occurs among the primary timestamps and is
not the final one, the bracket succeeds with time1 = T, and the
interpolation fraction degenerates to 0. -/
theorem bracket_nearest_exact (d : P1Data) (T : ℚ)
    (hplen : d.P1_pos.length = d.P1_events.length)
    (hmem : T ∈ d.P1_events)
    (hne : T ≠ d.P1_events.getD (d.P1_events.length - 1) 0) :
    ∃ t2 p1 p2,
      bracket_nearest d.P1_events d.P1_pos (find_nearest d.P1_events T) T =
        some (T, t2, p1, p2) ∧
      time_delta T t2 T = 0 := by
  have hne0 : d.P1_events ≠ [] := List.ne_nil_of_mem hmem
  have ha : find_nearest d.P1_events T < d.P1_events.length :=
    find_nearest_lt_length _ _ hne0
  have haT : d.P1_events.getD (find_nearest d.P1_events T) 0 = T :=
    find_nearest_exact _ _ hmem
  have ha1 : find_nearest d.P1_events T + 1 < d.P1_events.length := by
    by_contra hcon
    have heq : find_nearest d.P1_events T = d.P1_events.length - 1 := by omega
    rw [heq] at haT
    exact hne haT.symm
  have hcast : ((find_nearest d.P1_events T : Int) + 1) =
      ((find_nearest d.P1_events T + 1 : Nat) : Int) := by omega
  refine ⟨d.P1_events.getD (find_nearest d.P1_events T + 1) 0,
    d.P1_pos.getD (find_nearest d.P1_events T) (0, 0, 0),
    d.P1_pos.getD (find_nearest d.P1_events T + 1) (0, 0, 0), ?_, ?_⟩
  · unfold bracket_nearest
    rw [haT, if_pos (le_refl T), hcast, pyGet_natCast, pyGet_natCast,
      get?_eq_some_getD 0 _ _ ha1, get?_eq_some_getD (0, 0, 0) _ _ (by omega)]
  · unfold time_delta
    split
    · rw [sub_self, zero_div]
    · rfl

/-- Claim C1 (amended): for every secondary capture classified in range whose
bracketing fixes satisfy T1 different from T2, and whose interpolated height
P1.h + f * (P2.h - P1.h) is nonzero, the emitted position equals,
componentwise for easting, northing and height,
P1.value + ((T - T1) / (T2 - T1)) * (P2.value - P1.value). (The original
claim without the nonzero-height proviso fails: when the interpolated height
is exactly 0 the row is overwritten with the fallback easting/northing, see
the counterexample.) -/
theorem c1_interp_formula_amended (d : P1Data) (T rE rN t1 t2 : ℚ) (p1 p2 : Pos3)
    (hc : P1_triggered d T = true)
    (hb : bracket_nearest d.P1_events d.P1_pos (find_nearest d.P1_events T) T =
      some (t1, t2, p1, p2))
    (hne : t1 ≠ t2)
    (hh : p1.2.2 + (T - t1) / (t2 - t1) * (p2.2.2 - p1.2.2) ≠ 0) :
    ret_micasense_pos_step d T rE rN =
      some (p1.1 + (T - t1) / (t2 - t1) * (p2.1 - p1.1),
        p1.2.1 + (T - t1) / (t2 - t1) * (p2.2.1 - p1.2.1),
        p1.2.2 + (T - t1) / (t2 - t1) * (p2.2.2 - p1.2.2)) := by
  have htd : time_delta t1 t2 T = (T - t1) / (t2 - t1) := by
    unfold time_delta
    rw [if_pos (sub_ne_zero.mpr (Ne.symm hne))]
  unfold ret_micasense_pos_step bracket_selection
  rw [hc]
  simp only [if_true]
  rw [hb]
  simp only [interp_pos, htd]
  rw [if_pos hh]

/-- On a duplicate-free list, the index of the element at position i is i
(mica_events.index of the loop, for distinct capture timestamps). -/
theorem indexOf_getD_of_nodup (l : List ℚ) (hnd : l.Nodup) :
    ∀ i, i < l.length → l.indexOf (l.getD i 0) = i := by
  induction l with
  | nil => intro i hi; simp at hi
  | cons x xs ih =>
    intro i hi
    cases i with
    | zero => simp
    | succ i =>
      have hix : i < xs.length := by simpa using hi
      have hgd : (x :: xs).getD (i + 1) 0 = xs.getD i 0 := rfl
      have hmem : xs.getD i 0 ∈ xs := by
        rw [List.getD_eq_getElem _ _ hix]
        exact List.getElem_mem hix
      have hne : x ≠ xs.getD i 0 := by
        intro h
        exact (List.nodup_cons.mp hnd).1 (h ▸ hmem)
      rw [hgd, List.indexOf_cons_ne _ hne, ih (List.nodup_cons.mp hnd).2 i hix]

/-- Concrete primary data for the C1 witness. -/
def exC1wit : P1Data := ⟨[0, 10], [(0, 0, 0), (100, 50, 20)], [0], [10]⟩

/-- Witness for claim C1: the concrete test of the claim. Bracketing fixes
at T1 = 0 with position (0,0,0) and T2 = 10 with position (100,50,20) and a
capture at T = 5 interpolate to exactly (50,25,10). -/
theorem c1_interp_formula_wit :
    ret_micasense_pos_step exC1wit 5 9 9 = some (50, 25, 10) := by
  have h := c1_interp_formula_amended exC1wit 5 9 9 0 10 (0, 0, 0) (100, 50, 20)
    (of_decide_eq_true (by with_unfolding_all rfl))
    (by with_unfolding_all rfl)
    (of_decide_eq_true (by with_unfolding_all rfl))
    (of_decide_eq_true (by with_unfolding_all rfl))
  rw [h]
  norm_num

/-- Concrete primary data for the C1 counterexample. -/
def exC1cex : P1Data := ⟨[0, 10], [(0, 0, -5), (100, 50, 5)], [0], [10]⟩

/-- Counterexample for claim C1 as stated: an in-range capture at T = 5
bracketed by fixes with heights -5 and 5 interpolates to height exactly 0,
so the emitted easting is the fallback value 7, not the value 50 given by
the interpolation formula. -/
theorem c1_emitted_not_formula_cex :
    P1_triggered exC1cex 5 = true ∧
    bracket_nearest exC1cex.P1_events exC1cex.P1_pos
        (find_nearest exC1cex.P1_events 5) 5 =
      some (0, 10, (0, 0, -5), (100, 50, 5)) ∧
    ret_micasense_pos_step exC1cex 5 7 9 = some (7, 9, 0) ∧
    (0 : ℚ) + (5 - 0) / (10 - 0) * (100 - 0) = 50 ∧
    (7 : ℚ) ≠ 50 :=
  of_decide_eq_true (by with_unfolding_all rfl)

/-- Concrete primary data for claim C2: one segment with fixes at 0, 10. -/
def exC2 : P1Data := ⟨[0, 10], [(0, 0, 1), (2, 2, 9)], [0], [10]⟩

/-- Claim C2 (code bug): a capture whose timestamp equals the last primary
fix timestamp (the last fix of the last segment) is classified in range,
but the bracket then reads index nearest+1 past the end of the arrays, an
IndexError, instead of yielding f = 0 and that fix. Evaluated on primary
timestamps [0, 10] and a capture at T = 10. -/
theorem c2_last_fix_index_error :
    P1_triggered exC2 10 = true ∧
    bracket_nearest exC2.P1_events exC2.P1_pos
        (find_nearest exC2.P1_events 10) 10 = none ∧
    ret_micasense_pos_step exC2 10 3 4 = none :=
  of_decide_eq_true (by with_unfolding_all rfl)

/-- Claim C4 (amended): with ordered, non-overlapping segments, a capture
whose timestamp lies strictly between the last timestamp of segment k and
the first timestamp of segment k+1 is classified out of range and emitted
as the sentinel record: height exactly 0 and the fallback easting/northing
taken at the index of the first capture sharing its timestamp, which is its
own raw position when capture timestamps are pairwise distinct (the Nodup
hypothesis; without it the row can carry the raw position of an earlier
capture with an equal timestamp, see the counterexample). -/
theorem c4_gap_sentinel_amended (d : P1Data) (ev : List ℚ) (mp : List (ℚ × ℚ))
    (names : List String) (i k : Nat)
    (hw : SegWF d) (ho : SegOrdered d)
    (hk : k + 1 < d.P1_first_timestamp.length)
    (hg1 : d.P1_last_timestamp.getD k 0 < ev.getD i 0)
    (hg2 : ev.getD i 0 < d.P1_first_timestamp.getD (k + 1) 0)
    (hnd : ev.Nodup) (hi : i < ev.length) :
    P1_triggered d (ev.getD i 0) = false ∧
    ret_micasense_pos_row d ev mp names i =
      some (names.getD i "", (mp.getD i (0, 0)).1, (mp.getD i (0, 0)).2, 0) := by
  have hf := P1_triggered_false_of_gap d (ev.getD i 0) k hw ho hk hg1 hg2
  refine ⟨hf, ?_⟩
  unfold ret_micasense_pos_row
  rw [indexOf_getD_of_nodup ev hnd i hi,
    step_untriggered d (ev.getD i 0) _ _ hf]
  rfl

/-- Concrete primary data for the C4 witness: segments [0,10], [20,30]. -/
def exC4wit : P1Data :=
  ⟨[0, 10, 20, 30], [(0, 0, 1), (10, 0, 2), (20, 0, 3), (30, 0, 4)],
    [0, 20], [10, 30]⟩

/-- Witness for claim C4: the concrete test of the claim. With segments
[0,10] and [20,30], a capture at T = 15 is marked out of range and written
with its raw easting/northing (7, 8) and height sentinel 0. -/
theorem c4_gap_sentinel_wit :
    P1_triggered exC4wit 15 = false ∧
    ret_micasense_pos_row exC4wit [15] [(7, 8)] ["img1"] 0 =
      some ("img1", 7, 8, 0) := by
  have h := c4_gap_sentinel_amended exC4wit [15] [(7, 8)] ["img1"] 0 0
    (of_decide_eq_true (by with_unfolding_all rfl))
    (of_decide_eq_true (by with_unfolding_all rfl))
    (of_decide_eq_true (by with_unfolding_all rfl))
    (of_decide_eq_true (by with_unfolding_all rfl))
    (of_decide_eq_true (by with_unfolding_all rfl))
    (of_decide_eq_true (by with_unfolding_all rfl))
    (of_decide_eq_true (by with_unfolding_all rfl))
  exact h

/-- Concrete primary data for the C4 counterexample. -/
def exC4cex : P1Data :=
  ⟨[0, 10, 20, 30], [(0, 0, 1), (10, 0, 2), (20, 0, 3), (30, 0, 4)],
    [0, 20], [10, 30]⟩

/-- Counterexample for claim C4 as stated: with segments [0,10] and
[20,30], two captures both at T = 15 with raw positions (1,2) and (3,4),
the second row is written with the raw position (1,2) of the first capture,
not with its own raw values (3,4). -/
theorem c4_gap_raw_alias_cex :
    P1_triggered exC4cex 15 = false ∧
    ret_micasense_pos_row exC4cex [15, 15] [(1, 2), (3, 4)] ["a", "b"] 1 =
      some ("b", 1, 2, 0) ∧
    some (("b" : String), ((1 : ℚ), (2 : ℚ), (0 : ℚ))) ≠
      some ("b", ((3 : ℚ), (4 : ℚ), (0 : ℚ))) :=
  of_decide_eq_true (by with_unfolding_all rfl)

/-- Discovered files for claim C5: f0 has no readable tags, f1 has
metadata with capture timestamp 5 and raw position (1, 2). -/
def exC5files : List MicaFile := [⟨"f0", none⟩, ⟨"f1", some (5, 1, 2)⟩]

/-- Concrete primary data for claim C5. -/
def exC5 : P1Data := ⟨[0, 10], [(0, 0, 2), (10, 10, 4)], [0], [10]⟩

/-- Claim C5 (code bug): one row is written per capture with metadata (the
row-count part of the claim holds on this run), but the row is keyed by
filelist[count] over the unfiltered discovery list, so after a file with no
readable tags is skipped the row of the next capture carries the skipped
file name f0 instead of the capture identifier f1. -/
theorem c5_label_misalign_bug :
    ret_micasense_pos_rows exC5 exC5files = some [("f0", 5, 5, 3)] ∧
    (mica_events_of exC5files).length = 1 ∧
    ("f0" : String) ≠ "f1" :=
  of_decide_eq_true (by with_unfolding_all rfl)

/-- Claim C8 (confirmed): for a bracket whose two fixes share the same
timestamp, no division is attempted: the interpolation fraction is defined
as 0 and the interpolated value equals the first fix position. -/
theorem c8_degenerate_bracket (d : P1Data) (T t1 t2 : ℚ) (p1 p2 : Pos3)
    (hb : bracket_nearest d.P1_events d.P1_pos (find_nearest d.P1_events T) T =
      some (t1, t2, p1, p2))
    (heq : t1 = t2) :
    time_delta t1 t2 T = 0 ∧ interp_pos (time_delta t1 t2 T) p1 p2 = p1 := by
  subst heq
  have h0 : time_delta t1 t1 T = 0 := by
    unfold time_delta
    rw [if_neg (by simp)]
  refine ⟨h0, ?_⟩
  rw [h0]
  simp [interp_pos]

/-- Concrete primary data for claim C8: duplicate timestamps in the log. -/
def exC8 : P1Data := ⟨[5, 5], [(1, 2, 3), (4, 5, 6)], [5], [5]⟩

/-- Witness for claim C8: duplicate primary timestamps [5, 5]; the bracket
of a capture at T = 5 has equal times, the fraction is 0 and the
interpolation returns the first fix position (1,2,3). -/
theorem c8_degenerate_bracket_wit :
    bracket_nearest exC8.P1_events exC8.P1_pos
        (find_nearest exC8.P1_events 5) 5 =
      some (5, 5, (1, 2, 3), (4, 5, 6)) ∧
    time_delta 5 5 5 = 0 ∧
    interp_pos (time_delta 5 5 5) (1, 2, 3) (4, 5, 6) = (1, 2, 3) := by
  have hb : bracket_nearest exC8.P1_events exC8.P1_pos
      (find_nearest exC8.P1_events 5) 5 =
        some (5, 5, (1, 2, 3), (4, 5, 6)) := by with_unfolding_all rfl
  have h := c8_degenerate_bracket exC8 5 5 5 (1, 2, 3) (4, 5, 6) hb rfl
  exact ⟨hb, h.1, h.2⟩

/-- Claim C10 (amended): row validity is decided solely by whether the
interpolated height is exactly 0. When it is 0 - including any in-range
capture whose interpolation happens to produce height exactly 0 - the row
carries the fallback easting/northing (the raw position of the first
capture sharing the timestamp; the own raw position under the Nodup
hypothesis) with height 0; when it is nonzero the row carries the
interpolated triple. -/
theorem c10_height_dispatch_amended (d : P1Data) (ev : List ℚ)
    (mp : List (ℚ × ℚ)) (names : List String) (i : Nat) (t1 t2 : ℚ)
    (p1 p2 : Pos3) (hnd : ev.Nodup) (hi : i < ev.length)
    (hb : bracket_selection d (ev.getD i 0) = some (t1, t2, p1, p2)) :
    ((interp_pos (time_delta t1 t2 (ev.getD i 0)) p1 p2).2.2 = 0 →
      ret_micasense_pos_row d ev mp names i =
        some (names.getD i "", (mp.getD i (0, 0)).1, (mp.getD i (0, 0)).2, 0)) ∧
    ((interp_pos (time_delta t1 t2 (ev.getD i 0)) p1 p2).2.2 ≠ 0 →
      ret_micasense_pos_row d ev mp names i =
        some (names.getD i "", interp_pos (time_delta t1 t2 (ev.getD i 0)) p1 p2)) := by
  unfold ret_micasense_pos_row ret_micasense_pos_step
  rw [indexOf_getD_of_nodup ev hnd i hi, hb]
  constructor
  · intro h
    dsimp only
    rw [if_neg (not_not_intro h), h]
    rfl
  · intro h
    dsimp only
    rw [if_pos h]
    rfl

/-- Concrete primary data for the C10 witness. -/
def exC10wit : P1Data := ⟨[0, 10], [(0, 0, -3), (40, 20, 3)], [0], [10]⟩

/-- Witness for claim C10: an in-range capture at T = 5 bracketed by fixes
with heights -3 and 3 interpolates to height exactly 0 and its row is
written with the raw easting/northing (11, 13) and height 0. -/
theorem c10_height_dispatch_wit :
    ret_micasense_pos_row exC10wit [5] [(11, 13)] ["w"] 0 =
      some ("w", 11, 13, 0) := by
  have h := c10_height_dispatch_amended exC10wit [5] [(11, 13)] ["w"] 0
    0 10 (0, 0, -3) (40, 20, 3)
    (of_decide_eq_true (by with_unfolding_all rfl))
    (of_decide_eq_true (by with_unfolding_all rfl))
    (by with_unfolding_all rfl)
  exact h.1 (by with_unfolding_all rfl)

/-- Concrete primary data for the C10 counterexample. -/
def exC10cex : P1Data := ⟨[0, 10], [(0, 0, 1), (10, 10, 2)], [0], [10]⟩

/-- Counterexample for claim C10 as stated: two out-of-range captures share
T = 50; the second row carries the raw position (1,2) of the first capture
rather than its own raw values (3,4). -/
theorem c10_raw_alias_cex :
    ret_micasense_pos_row exC10cex [50, 50] [(1, 2), (3, 4)] ["a", "b"] 1 =
      some ("b", 1, 2, 0) ∧
    some (("b" : String), ((1 : ℚ), (2 : ℚ), (0 : ℚ))) ≠
      some ("b", ((3 : ℚ), (4 : ℚ), (0 : ℚ))) :=
  of_decide_eq_true (by with_unfolding_all rfl)

/-- Claim C3 (amended): for every flight segment whose first timestamp is
distinct from the final primary timestamp, a capture exactly at that first
timestamp is classified in range, its bracket succeeds with time1 equal to
the capture timestamp, and the interpolation fraction is f = 0; a capture
one unit earlier than the first timestamp of the first segment is
classified out of range and emitted as the sentinel record. (The original
claim fails when the first timestamp of a segment coincides with the final
primary timestamp - a one-fix last segment - where the bracket access goes
out of bounds, see the counterexample.) -/
theorem c3_boundary_amended (d : P1Data) (k : Nat) (rE rN : ℚ)
    (hw : SegWF d) (ho : SegOrdered d)
    (hk : k < d.P1_first_timestamp.length)
    (hplen : d.P1_pos.length = d.P1_events.length)
    (hmem : d.P1_first_timestamp.getD k 0 ∈ d.P1_events)
    (hne : d.P1_first_timestamp.getD k 0 ≠
      d.P1_events.getD (d.P1_events.length - 1) 0) :
    P1_triggered d (d.P1_first_timestamp.getD k 0) = true ∧
    (∃ t2 p1 p2,
      bracket_nearest d.P1_events d.P1_pos
          (find_nearest d.P1_events (d.P1_first_timestamp.getD k 0))
          (d.P1_first_timestamp.getD k 0) =
        some (d.P1_first_timestamp.getD k 0, t2, p1, p2) ∧
      time_delta (d.P1_first_timestamp.getD k 0) t2
        (d.P1_first_timestamp.getD k 0) = 0) ∧
    P1_triggered d (d.P1_first_timestamp.getD 0 0 - 1) = false ∧
    ret_micasense_pos_step d (d.P1_first_timestamp.getD 0 0 - 1) rE rN =
      some (rE, rN, 0) := by
  have h1 : ¬ d.P1_first_timestamp.getD k 0 < d.P1_first_timestamp.getD 0 0 := by
    have := seg_first_mono d hw ho k hk 0 (Nat.zero_le k)
    push_neg
    linarith
  have h2 : ¬ d.P1_last_timestamp.getD (d.P1_first_timestamp.length - 1) 0 <
      d.P1_first_timestamp.getD k 0 := by
    have := seg_first_le_last d hw ho (d.P1_first_timestamp.length - 1)
      (by omega) k (by omega)
    push_neg
    linarith
  have h3 : ∀ j, j < d.P1_first_timestamp.length - 1 →
      ¬ (d.P1_last_timestamp.getD j 0 < d.P1_first_timestamp.getD k 0 ∧
        d.P1_first_timestamp.getD k 0 < d.P1_first_timestamp.getD (j + 1) 0) := by
    intro j hj
    rintro ⟨hja, hjb⟩
    rcases le_or_lt k j with hkj | hkj
    · have := seg_first_le_last d hw ho j (by omega) k hkj
      linarith
    · have := seg_first_mono d hw ho k hk (j + 1) (by omega)
      linarith
  have hbefore : P1_triggered d (d.P1_first_timestamp.getD 0 0 - 1) = false :=
    P1_triggered_false_before d _ (by linarith)
  exact ⟨P1_triggered_true_of d _ h1 h2 h3,
    bracket_nearest_exact d _ hplen hmem hne,
    hbefore,
    step_untriggered d _ rE rN hbefore⟩

/-- Concrete primary data for the C3 witness. -/
def exC3wit : P1Data := ⟨[100, 110], [(1, 2, 3), (4, 5, 6)], [100], [110]⟩

/-- Witness for claim C3: one segment [100, 110]; a capture at T = 100 is
in range with f = 0, a capture at T = 99 is out of range and emitted with
the sentinel height 0. -/
theorem c3_boundary_wit :
    P1_triggered exC3wit 100 = true ∧
    (∃ t2 p1 p2,
      bracket_nearest exC3wit.P1_events exC3wit.P1_pos
          (find_nearest exC3wit.P1_events 100) 100 = some (100, t2, p1, p2) ∧
      time_delta 100 t2 100 = 0) ∧
    P1_triggered exC3wit (100 - 1) = false ∧
    ret_micasense_pos_step exC3wit (100 - 1) 2 3 = some (2, 3, 0) := by
  have h := c3_boundary_amended exC3wit 0 2 3
    (of_decide_eq_true (by with_unfolding_all rfl))
    (of_decide_eq_true (by with_unfolding_all rfl))
    (of_decide_eq_true (by with_unfolding_all rfl))
    (of_decide_eq_true (by with_unfolding_all rfl))
    (of_decide_eq_true (by with_unfolding_all rfl))
    (of_decide_eq_true (by with_unfolding_all rfl))
  exact h

/-- Concrete primary data for the C3 counterexample: the second segment
consists of a single fix at 20, so its first timestamp is the final primary
timestamp. -/
def exC3cex : P1Data :=
  ⟨[0, 10, 20], [(0, 0, 1), (1, 1, 2), (2, 2, 3)], [0, 20], [10, 20]⟩

/-- Counterexample for claim C3 as stated: segments [0,10] and the one-fix
segment [20,20]. The capture at T = 20, exactly the first timestamp of the
second segment, is classified in range, but the bracket access at index
nearest+1 is out of bounds (IndexError) and no fraction f = 0 is produced. -/
theorem c3_boundary_cex :
    exC3cex.P1_first_timestamp.getD 1 0 = 20 ∧
    P1_triggered exC3cex 20 = true ∧
    bracket_nearest exC3cex.P1_events exC3cex.P1_pos
      (find_nearest exC3cex.P1_events 20) 20 = none ∧
    ret_micasense_pos_step exC3cex 20 9 9 = none :=
  of_decide_eq_true (by with_unfolding_all rfl)

/-- Value of a literal decimal digit string (the int() parse of the
SubSecTime field reported by the sensor). -/
def digitsToNat : List Nat → Nat
  | [] => 0
  | d :: ds => d * 10 ^ ds.length + digitsToNat ds

/-- Fuel-driven count of decimal digits; with fuel at least n this is the
length of the decimal representation of n (1 for n = 0). -/
def dlenAux (fuel n : Nat) : Nat :=
  match fuel with
  | 0 => 1
  | fuel + 1 => if n < 10 then 1 else dlenAux fuel (n / 10) + 1

/-- Number of digits in the decimal representation of n, as produced by
formatting int(subsec) back into a string. -/
def decimalLen (n : Nat) : Nat := dlenAux n n

/-- Millisecond contribution computed by the source (upd_micasense_pos_filename):
subsec = int(string); sign split off; float of the string 0.(repr of the
integer); times 1000. Reformatting the integer drops leading zeros of the
reported digit string. -/
def code_subsec_millisec (neg : Bool) (ds : List Nat) : ℚ :=
  (if neg then (-1 : ℚ) else 1) *
    ((digitsToNat ds : ℚ) / 10 ^ decimalLen (digitsToNat ds)) * 1000

/-- Millisecond contribution prescribed by the spec sentence: sign *
(0.<digits>) * 1000 with the literal digit string, leading zeros
significant. -/
def spec_subsec_millisec (neg : Bool) (ds : List Nat) : ℚ :=
  (if neg then (-1 : ℚ) else 1) *
    ((digitsToNat ds : ℚ) / 10 ^ ds.length) * 1000

/-- The capture timestamp before the clock-offset correction: the whole
second time T0 plus the reconstructed sub-second milliseconds. -/
def mica_temp_timestamp (T0 : ℚ) (neg : Bool) (ds : List Nat) : ℚ :=
  T0 + code_subsec_millisec neg ds / 1000

/-- A digit string of valid decimal digits denotes less than 10^length. -/
theorem digitsToNat_lt (ds : List Nat) (h : ∀ d ∈ ds, d ≤ 9) :
    digitsToNat ds < 10 ^ ds.length := by
  induction ds with
  | nil => simp [digitsToNat]
  | cons d ds ih =>
    have hd : d ≤ 9 := h d (List.mem_cons_self d ds)
    have hrest : digitsToNat ds < 10 ^ ds.length :=
      ih fun x hx => h x (List.mem_cons_of_mem d hx)
    have hbound : d * 10 ^ ds.length ≤ 9 * 10 ^ ds.length :=
      Nat.mul_le_mul_right _ hd
    calc digitsToNat (d :: ds) = d * 10 ^ ds.length + digitsToNat ds := rfl
      _ < d * 10 ^ ds.length + 10 ^ ds.length := by omega
      _ ≤ 9 * 10 ^ ds.length + 10 ^ ds.length := by omega
      _ = 10 ^ (ds.length + 1) := by ring
      _ = 10 ^ (d :: ds).length := by simp

/-- A digit string with a nonzero leading digit denotes at least
10^(length - 1). -/
theorem digitsToNat_ge (d : Nat) (ds : List Nat) (hd : d ≠ 0) :
    10 ^ ds.length ≤ digitsToNat (d :: ds) := by
  have h1 : 1 * 10 ^ ds.length ≤ d * 10 ^ ds.length :=
    Nat.mul_le_mul_right _ (by omega)
  calc 10 ^ ds.length = 1 * 10 ^ ds.length := by ring
    _ ≤ d * 10 ^ ds.length := h1
    _ ≤ d * 10 ^ ds.length + digitsToNat ds := Nat.le_add_right _ _
    _ = digitsToNat (d :: ds) := rfl

/-- Dropping leading zero digits does not change the denoted value. -/
theorem digitsToNat_dropWhile_zero (ds : List Nat) :
    digitsToNat (ds.dropWhile fun d => d == 0) = digitsToNat ds := by
  induction ds with
  | nil => rfl
  | cons d ds ih =>
    by_cases hd : d = 0
    · subst hd
      rw [List.dropWhile_cons_of_pos (by simp)]
      rw [ih]
      show digitsToNat ds = 0 * 10 ^ ds.length + digitsToNat ds
      omega
    · rw [List.dropWhile_cons_of_neg (by simp [hd])]

/-- The head surviving dropWhile fails the predicate. -/
theorem dropWhile_head_not (p : Nat → Bool) (l : List Nat) (d : Nat)
    (tl : List Nat) (h : l.dropWhile p = d :: tl) : p d = false := by
  induction l with
  | nil => simp at h
  | cons x xs ih =>
    by_cases hx : p x
    · rw [List.dropWhile_cons_of_pos hx] at h
      exact ih h
    · rw [List.dropWhile_cons_of_neg hx] at h
      cases h
      exact Bool.of_not_eq_true hx

/-- dropWhile keeps only elements of the original list. -/
theorem mem_dropWhile (p : Nat → Bool) (l : List Nat) (x : Nat)
    (h : x ∈ l.dropWhile p) : x ∈ l := by
  induction l with
  | nil => simp at h
  | cons y ys ih =>
    by_cases hy : p y
    · rw [List.dropWhile_cons_of_pos hy] at h
      exact List.mem_cons_of_mem y (ih h)
    · rw [List.dropWhile_cons_of_neg hy] at h
      exact h

/-- The digit count of n is k + 1 exactly when 10^k le n < 10^(k+1). -/
theorem dlenAux_eq (k : Nat) : ∀ n fuel, n ≤ fuel →
    10 ^ k ≤ n → n < 10 ^ (k + 1) → dlenAux fuel n = k + 1 := by
  induction k with
  | zero =>
    intro n fuel hnf h1 h2
    match fuel with
    | 0 => omega
    | fuel + 1 =>
      show (if n < 10 then 1 else dlenAux fuel (n / 10) + 1) = 1
      rw [if_pos (by simpa using h2)]
  | succ k ih =>
    intro n fuel hnf h1 h2
    have h10 : 10 ≤ n := by
      calc 10 = 10 ^ 1 := by ring
        _ ≤ 10 ^ (k + 1) := Nat.pow_le_pow_right (by omega) (by omega)
        _ ≤ n := h1
    match fuel with
    | 0 => omega
    | fuel + 1 =>
      show (if n < 10 then 1 else dlenAux fuel (n / 10) + 1) = k + 2
      rw [if_neg (by omega)]
      have hdiv1 : 10 ^ k ≤ n / 10 := by
        rw [Nat.le_div_iff_mul_le (by omega)]
        calc 10 ^ k * 10 = 10 ^ (k + 1) := by ring
          _ ≤ n := h1
      have hdiv2 : n / 10 < 10 ^ (k + 1) := by
        rw [Nat.div_lt_iff_lt_mul (by omega)]
        calc n < 10 ^ (k + 1 + 1) := h2
          _ = 10 ^ (k + 1) * 10 := by ring
      have hfuel : n / 10 ≤ fuel := by
        have : n / 10 < n := Nat.div_lt_self (by omega) (by omega)
        omega
      rw [ih (n / 10) fuel hfuel hdiv1 hdiv2]

/-- Claim C6 (amended): the sub-second field with sign and literal digit
string contributes sign * (0.<digits with leading zeros stripped>) * 1000
milliseconds - the int() round trip of the source drops leading zeros, so
they are NOT significant, against the literal-digit-string reading of the
claim (see the counterexample). The sign handling of the claim holds: a
reported value -5 with whole-second time T0 resolves to a timestamp
strictly less than T0. -/
theorem c6_subsec_amended (neg : Bool) (ds : List Nat) (T0 : ℚ)
    (hds : ∀ d ∈ ds, d ≤ 9) :
    code_subsec_millisec neg ds =
      spec_subsec_millisec neg (ds.dropWhile fun d => d == 0) ∧
    mica_temp_timestamp T0 true [5] < T0 := by
  constructor
  · cases hds' : ds.dropWhile fun d => d == 0 with
    | nil =>
      have hz : digitsToNat ds = 0 := by
        rw [← digitsToNat_dropWhile_zero ds, hds']
        rfl
      unfold code_subsec_millisec spec_subsec_millisec
      rw [hz]
      norm_num [digitsToNat, decimalLen, dlenAux]
    | cons d tl =>
      have hd0 : d ≠ 0 := by
        have := dropWhile_head_not _ ds d tl hds'
        simpa using this
      have hval : digitsToNat (d :: tl) = digitsToNat ds := by
        rw [← hds']
        exact digitsToNat_dropWhile_zero ds
      have hmem : ∀ x ∈ d :: tl, x ≤ 9 := by
        intro x hx
        exact hds x (mem_dropWhile _ ds x (hds' ▸ hx))
      have hub : digitsToNat (d :: tl) < 10 ^ (tl.length + 1) := by
        have := digitsToNat_lt (d :: tl) hmem
        simpa using this
      have hlb : 10 ^ tl.length ≤ digitsToNat (d :: tl) :=
        digitsToNat_ge d tl hd0
      have hdl : decimalLen (digitsToNat ds) = tl.length + 1 := by
        rw [← hval]
        exact dlenAux_eq tl.length (digitsToNat (d :: tl)) _ (le_refl _) hlb hub
      unfold code_subsec_millisec spec_subsec_millisec
      rw [hdl, hval]
      simp [List.length_cons]
  · unfold mica_temp_timestamp code_subsec_millisec
    have h5 : digitsToNat [5] = 5 := by decide
    have hd5 : decimalLen 5 = 1 := by decide
    rw [h5, hd5]
    norm_num

/-- Witness for claim C6: the amended equality at the digit string 05, and
the reported value -5 resolving strictly below the whole second. -/
theorem c6_subsec_wit :
    code_subsec_millisec false [0, 5] =
      spec_subsec_millisec false ([0, 5].dropWhile fun d => d == 0) ∧
    mica_temp_timestamp 0 true [5] < 0 :=
  c6_subsec_amended false [0, 5] 0 (by
    intro d hd
    fin_cases hd <;> omega)

/-- Counterexample for claim C6 as stated: the reported digit string 05
contributes 500 milliseconds in the code (0.5 after the int() round trip),
whereas the literal interpretation 0.05 of the claim gives 50. -/
theorem c6_leading_zero_cex :
    code_subsec_millisec false [0, 5] = 500 ∧
    spec_subsec_millisec false [0, 5] = 50 ∧
    (500 : ℚ) ≠ 50 := by
  refine ⟨?_, ?_, by norm_num⟩
  · have h5 : digitsToNat [0, 5] = 5 := by decide
    have hd5 : decimalLen 5 = 1 := by decide
    unfold code_subsec_millisec
    rw [h5, hd5]
    norm_num
  · have h5 : digitsToNat [0, 5] = 5 := by decide
    unfold spec_subsec_millisec
    rw [h5]
    norm_num

/-- The P1 position construction of upd_micasense_pos_custom: the shift
vector is added to each (lat, lon, ellh) row of P1_pos_mrk, and the
placeholder transformation then passes the shifted latitude through as the
easting and the shifted longitude as the northing - the
transformer.transform call of the adjacent comment is commented out. -/
def custom_build_P1_pos (P1_pos_mrk : List Pos3) (shift : Pos3) : List Pos3 :=
  P1_pos_mrk.map fun p =>
    (p.1 + shift.1, p.2.1 + shift.2.1, p.2.2 + shift.2.2)

/-- Claim C7 (code bug): in upd_micasense_pos_custom the positions fed to
the bracket-and-interpolate step are the raw shifted geographic
coordinates, unchanged: with the zero shift vector the construction is the
identity, and the easting handed to interpolation is the raw latitude 47,
not a projected coordinate. -/
theorem c7_placeholder_identity_bug :
    custom_build_P1_pos [(47, 8, 500), (46, 7, 100)] (0, 0, 0) =
      [(47, 8, 500), (46, 7, 100)] ∧
    ((custom_build_P1_pos [(47, 8, 500), (46, 7, 100)] (0, 0, 0)).getD 0
        (0, 0, 0)).1 = 47 := by
  constructor
  · norm_num [custom_build_P1_pos]
  · norm_num [custom_build_P1_pos]

/-- One line of an MRK log file, modelled after field extraction: entry i
is the numeric value parsed from field i (none when the field does not
parse as a number); a missing index is a line with fewer fields. -/
abbrev MrkLine := List (Option ℚ)

/-- The GNSS-to-UTC offset constant of upd_micasense_pos_filename. -/
def GPSUTC_deltat : ℚ := 0

/-- Unix timestamp of the GPS epoch datetime(1980, 1, 6). -/
def gps_epoch_base : ℚ := 315964800

/-- Field access on a parsed MRK line: none for a missing field
(IndexError) or an unparsable number (ValueError). -/
def fieldQ (l : MrkLine) (i : Nat) : Option ℚ := (l.get? i).bind id

/-- get_P1_timestamp of the source: seconds of field 1 plus 604800 times
the GNSS week of field 2, on the Unix axis, minus the GNSS-to-UTC offset;
none when the line is malformed (the source raises). -/
def get_P1_timestamp (l : MrkLine) : Option ℚ := do
  let secs ← fieldQ l 1
  let wk ← fieldQ l 2
  pure (gps_epoch_base + (secs + wk * 604800) - GPSUTC_deltat)

/-- One iteration of the get_P1_position loop: timestamp from fields 1 and
2, latitude/longitude/height from fields 6, 7 and 8; none when any of them
is missing or unparsable (the source raises and aborts the run). -/
def parseMrkLine (l : MrkLine) : Option (ℚ × Pos3) := do
  let secs ← fieldQ l 1
  let wk ← fieldQ l 2
  let lat ← fieldQ l 6
  let lon ← fieldQ l 7
  let ellh ← fieldQ l 8
  pure (gps_epoch_base + (secs + wk * 604800) - GPSUTC_deltat, (lat, lon, ellh))

/-- get_P1_position of the source: first and last timestamps from the
first and last lines, then every line parsed in order. A malformed line
anywhere aborts the whole read (none) - there is no skip-and-continue
recovery in this reader. -/
def get_P1_position (lines : List MrkLine) :
    Option (ℚ × ℚ × List (ℚ × Pos3)) := do
  let l0 ← lines.head?
  let first ← get_P1_timestamp l0
  let ln ← lines.getLast?
  let last ← get_P1_timestamp ln
  let evs ← lines.mapM parseMrkLine
  pure (first, last, evs)

/-- get_transformed_P1_positions of the source: a line with fewer than 9
fields is skipped (with a log message) and parsing continues; a line whose
latitude/longitude/height fields do not parse contributes a None
placeholder; otherwise the API transform of (lon, lat, ellh) is recorded
(None when the API call fails). -/
def get_transformed_P1_positions (api : ℚ → ℚ → ℚ → Option Pos3) :
    List MrkLine → List (Option Pos3)
  | [] => []
  | l :: ls =>
    if l.length < 9 then get_transformed_P1_positions api ls
    else
      (match fieldQ l 6, fieldQ l 7, fieldQ l 8 with
       | some lat, some lon, some ellh => api lon lat ellh
       | _, _, _ => none) :: get_transformed_P1_positions api ls

/-- Unfolding equation of the API-based reader on a cons. -/
theorem get_transformed_cons (api : ℚ → ℚ → ℚ → Option Pos3)
    (m : MrkLine) (ms : List MrkLine) :
    get_transformed_P1_positions api (m :: ms) =
      if m.length < 9 then get_transformed_P1_positions api ms
      else
        (match fieldQ m 6, fieldQ m 7, fieldQ m 8 with
         | some lat, some lon, some ellh => api lon lat ellh
         | _, _, _ => none) :: get_transformed_P1_positions api ms := rfl

/-- The API-based reader processes concatenated line lists independently. -/
theorem get_transformed_append (api : ℚ → ℚ → ℚ → Option Pos3)
    (xs ys : List MrkLine) :
    get_transformed_P1_positions api (xs ++ ys) =
      get_transformed_P1_positions api xs ++
        get_transformed_P1_positions api ys := by
  induction xs with
  | nil => rfl
  | cons l ls ih =>
    rw [List.cons_append, get_transformed_cons, get_transformed_cons]
    by_cases hl : l.length < 9
    · rw [if_pos hl, if_pos hl, ih]
    · rw [if_neg hl, if_neg hl, ih, List.cons_append]

/-- Claim C9 (amended): in the API-based reader
get_transformed_P1_positions, a line with fewer fields than required is
skipped and parsing continues exactly as if the line were absent, and a
full-length line whose latitude field cannot be parsed as a number yields a
None placeholder while parsing continues on the remaining lines. (The MRK
reader get_P1_position used by the interpolation pipeline has no such
recovery: a malformed line aborts the run, see the counterexample.) -/
theorem c9_reader_recovery_amended (api : ℚ → ℚ → ℚ → Option Pos3)
    (pre post : List MrkLine) (bad : MrkLine) :
    (bad.length < 9 →
      get_transformed_P1_positions api (pre ++ bad :: post) =
        get_transformed_P1_positions api (pre ++ post)) ∧
    (9 ≤ bad.length → fieldQ bad 6 = none →
      get_transformed_P1_positions api (pre ++ bad :: post) =
        get_transformed_P1_positions api pre ++
          none :: get_transformed_P1_positions api post) := by
  constructor
  · intro hshort
    rw [get_transformed_append, get_transformed_append, get_transformed_cons,
      if_pos hshort]
  · intro hlong hf6
    rw [get_transformed_append, get_transformed_cons, if_neg (by omega), hf6]

/-- A well-formed MRK line: photo number 1, seconds 10, week 2286,
latitude 47, longitude 8, height 500. -/
def mrkGood1 : MrkLine :=
  [some 1, some 10, some 2286, some 0, some 0, some 0, some 47, some 8, some 500]

/-- A full-length MRK line whose latitude field (field 6) does not parse
as a number. -/
def mrkBad : MrkLine :=
  [some 2, some 20, some 2286, some 0, some 0, some 0, none, some 8, some 500]

/-- A second well-formed MRK line. -/
def mrkGood2 : MrkLine :=
  [some 3, some 30, some 2286, some 0, some 0, some 0, some 46, some 7, some 501]

/-- A truncated MRK line with a single field. -/
def mrkShort : MrkLine := [some 4]

/-- A concrete stand-in for the coordinate transformation API. -/
def apiWit : ℚ → ℚ → ℚ → Option Pos3 := fun lon lat h => some (lon + lat, lat, h)

/-- Witness for claim C9: a short line between two good lines is skipped
with parsing continuing, and an unparsable full-length line contributes a
None placeholder between the two transformed good lines. -/
theorem c9_reader_recovery_wit :
    get_transformed_P1_positions apiWit ([mrkGood1] ++ mrkShort :: [mrkGood2]) =
      get_transformed_P1_positions apiWit ([mrkGood1] ++ [mrkGood2]) ∧
    get_transformed_P1_positions apiWit ([mrkGood1] ++ mrkBad :: [mrkGood2]) =
      get_transformed_P1_positions apiWit [mrkGood1] ++
        none :: get_transformed_P1_positions apiWit [mrkGood2] :=
  ⟨(c9_reader_recovery_amended apiWit [mrkGood1] [mrkGood2] mrkShort).1
      (of_decide_eq_true (by with_unfolding_all rfl)),
    (c9_reader_recovery_amended apiWit [mrkGood1] [mrkGood2] mrkBad).2
      (of_decide_eq_true (by with_unfolding_all rfl))
      (by with_unfolding_all rfl)⟩

/-- Counterexample for claim C9 as stated: the MRK reader get_P1_position,
given a line whose latitude field cannot be parsed between two good lines,
aborts the whole read instead of skipping the line, while the same reader
on just the two good lines succeeds. -/
theorem c9_reader_abort_cex :
    get_P1_position [mrkGood1, mrkBad, mrkGood2] = none ∧
    get_P1_position [mrkGood1, mrkGood2] =
      some (1698537610, 1698537630,
        [(1698537610, (47, 8, 500)), (1698537630, (46, 7, 501))]) :=
  ⟨by with_unfolding_all rfl, by with_unfolding_all rfl⟩
